import Mathlib

/-!
# Verification of the cqvx signing and normalization core

This file is a shallow embedding, in Lean 4, of the request-signing and
response-normalization core of the `cqvx` venue-abstraction library, together
with proofs of the behavioural properties claimed for it.

Embedding conventions:

* Go byte slices are `List Nat` with every entry < 256; a `nil` slice is
  distinguished from an allocated empty slice by `Option (List Nat)`.
* Go strings are Lean `String`s; every concrete string appearing in the
  claims is ASCII, so `String → List Nat` byte conversion is the code-point
  map.
* Go `int64` arithmetic is `Int` with explicit range checks where the code
  (via `strconv.ParseInt`) enforces them; Go `/` and `%` truncate toward
  zero, which is `Int.tdiv` / `Int.tmod`.
* Go `float64` values inside the order-book normalizers are modelled as
  exact rationals `ℚ`; the order-book claims are structural (which fields
  are present and how they are combined), not claims about IEEE rounding.
* `time.Time` values are modelled by their epoch offset in nanoseconds
  (`Int`), which is the quantity the code computes with.
* Library calls that live outside this repository (`encoding/json`
  unmarshalling, `time.Parse` of calendar formats) are abstracted as
  function parameters; every theorem that touches them quantifies over the
  abstracted function, so nothing is assumed about their behaviour.
* Fallible Go functions returning `(T, error)` become `Except String T`;
  only the presence and branch structure of errors matters, so error
  messages are abbreviated.
-/

deriving instance DecidableEq for Except

/-! ## Bytes and ASCII strings -/

/-- Bytes of an ASCII string (Go `[]byte(s)`, valid for the ASCII strings
used throughout the claims). -/
def strBytes (s : String) : List Nat := s.data.map Char.toNat

/-- Go `string(b)` for a possibly-nil byte slice: a nil slice and an empty
slice both convert to the empty string, so both are the empty byte list. -/
def bodyBytes (b : Option (List Nat)) : List Nat := b.getD []

/-! ## base64 (Go `encoding/base64` StdEncoding) -/

/-- The standard base64 alphabet. -/
def b64Alphabet : List Char :=
  "ABCDEFGHIJKLMNOPQRSTUVWXYZabcdefghijklmnopqrstuvwxyz0123456789+/".data

/-- Character for a 6-bit group. -/
def b64EncChar (n : Nat) : Char := b64Alphabet.getD n 'A'

/-- Encode a byte list three bytes at a time, with `=` padding, as the Go function
`base64.StdEncoding.EncodeToString` does. -/
def base64EncodeChars : List Nat → List Char
  | [] => []
  | [a] =>
      [b64EncChar (a / 4), b64EncChar (a % 4 * 16), '=', '=']
  | [a, b] =>
      [b64EncChar (a / 4), b64EncChar (a % 4 * 16 + b / 16),
       b64EncChar (b % 16 * 4), '=']
  | a :: b :: c :: rest =>
      b64EncChar (a / 4) :: b64EncChar (a % 4 * 16 + b / 16) ::
      b64EncChar (b % 16 * 4 + c / 64) :: b64EncChar (c % 64) ::
      base64EncodeChars rest

/-- Go `base64.StdEncoding.EncodeToString`. -/
def base64Encode (bs : List Nat) : String := String.mk (base64EncodeChars bs)

/-- Value of one base64 character, `none` when the character is not in the
alphabet. -/
def b64DecVal (c : Char) : Option Nat :=
  if 65 ≤ c.toNat && c.toNat ≤ 90 then some (c.toNat - 65)
  else if 97 ≤ c.toNat && c.toNat ≤ 122 then some (c.toNat - 71)
  else if 48 ≤ c.toNat && c.toNat ≤ 57 then some (c.toNat + 4)
  else if c = '+' then some 62
  else if c = '/' then some 63
  else none

/-- Decode base64 text four characters at a time; `=` padding is accepted
only in the final quantum, and a length not divisible by four is an error,
matching the strict Go StdEncoding decoder. -/
def base64DecodeQuanta : List Char → Except String (List Nat)
  | [] => .ok []
  | a :: b :: c :: d :: rest =>
      match b64DecVal a, b64DecVal b with
      | some va, some vb =>
          if c = '=' then
            if d = '=' && rest.isEmpty then .ok [va * 4 + vb / 16]
            else .error "illegal base64 data"
          else
            match b64DecVal c with
            | some vc =>
                if d = '=' then
                  if rest.isEmpty then
                    .ok [va * 4 + vb / 16, vb % 16 * 16 + vc / 4]
                  else .error "illegal base64 data"
                else
                  match b64DecVal d with
                  | some vd =>
                      match base64DecodeQuanta rest with
                      | .ok tail =>
                          .ok ((va * 4 + vb / 16) :: (vb % 16 * 16 + vc / 4) ::
                               (vc % 4 * 64 + vd) :: tail)
                      | .error e => .error e
                  | none => .error "illegal base64 data"
            | none => .error "illegal base64 data"
      | _, _ => .error "illegal base64 data"
  | _ => .error "illegal base64 data"

/-- Go `base64.StdEncoding.DecodeString` (which skips CR and LF before
decoding). -/
def base64Decode (s : String) : Except String (List Nat) :=
  base64DecodeQuanta (s.data.filter fun c => !(c == '\r' || c == '\n'))

/-! ## SHA-256 (Go `crypto/sha256`) and HMAC (Go `crypto/hmac`)

32-bit words are `Nat`s kept below `2 ^ 32` by explicit reduction. -/

/-- `2 ^ 32`. -/
def M32 : Nat := 4294967296

/-- Addition modulo `2 ^ 32`. -/
def add32 (a b : Nat) : Nat := (a + b) % M32

/-- Right rotation of a 32-bit word. -/
def rotr32 (x n : Nat) : Nat := ((x >>> n) ||| (x <<< (32 - n))) % M32

/-- SHA-256 `Ch` function. -/
def sha256Ch (x y z : Nat) : Nat := (x &&& y) ^^^ ((M32 - 1 - x) &&& z)

/-- SHA-256 `Maj` function. -/
def sha256Maj (x y z : Nat) : Nat := (x &&& y) ^^^ (x &&& z) ^^^ (y &&& z)

/-- SHA-256 big sigma-0. -/
def bigSigma0 (x : Nat) : Nat := rotr32 x 2 ^^^ rotr32 x 13 ^^^ rotr32 x 22

/-- SHA-256 big sigma-1. -/
def bigSigma1 (x : Nat) : Nat := rotr32 x 6 ^^^ rotr32 x 11 ^^^ rotr32 x 25

/-- SHA-256 small sigma-0. -/
def smallSigma0 (x : Nat) : Nat := rotr32 x 7 ^^^ rotr32 x 18 ^^^ (x >>> 3)

/-- SHA-256 small sigma-1. -/
def smallSigma1 (x : Nat) : Nat := rotr32 x 17 ^^^ rotr32 x 19 ^^^ (x >>> 10)

/-- The 64 SHA-256 round constants (fractional parts of the cube roots
of the first 64 primes), written in decimal. -/
def sha256K : List Nat :=
  [1116352408, 1899447441, 3049323471, 3921009573, 961987163,
   1508970993, 2453635748, 2870763221, 3624381080, 310598401,
   607225278, 1426881987, 1925078388, 2162078206, 2614888103,
   3248222580, 3835390401, 4022224774, 264347078, 604807628,
   770255983, 1249150122, 1555081692, 1996064986, 2554220882,
   2821834349, 2952996808, 3210313671, 3336571891, 3584528711,
   113926993, 338241895, 666307205, 773529912, 1294757372,
   1396182291, 1695183700, 1986661051, 2177026350, 2456956037,
   2730485921, 2820302411, 3259730800, 3345764771, 3516065817,
   3600352804, 4094571909, 275423344, 430227734, 506948616,
   659060556, 883997877, 958139571, 1322822218, 1537002063,
   1747873779, 1955562222, 2024104815, 2227730452, 2361852424,
   2428436474, 2756734187, 3204031479, 3329325298]

/-- Big-endian bytes of a 64-bit length. -/
def be64 (n : Nat) : List Nat :=
  [n >>> 56 % 256, n >>> 48 % 256, n >>> 40 % 256, n >>> 32 % 256,
   n >>> 24 % 256, n >>> 16 % 256, n >>> 8 % 256, n % 256]

/-- SHA-256 padding: a `0x80` byte, zeroes to 56 mod 64, then the bit
length big-endian. -/
def sha256Pad (msg : List Nat) : List Nat :=
  msg ++ 0x80 :: List.replicate ((119 - msg.length % 64) % 64) 0
      ++ be64 (msg.length * 8)

/-- Combine bytes into big-endian 32-bit words. -/
def bytesToWords : List Nat → List Nat
  | a :: b :: c :: d :: rest => (((a * 256 + b) * 256 + c) * 256 + d) :: bytesToWords rest
  | _ => []

/-- Extend a 16-word message schedule by `fuel` further words. -/
def extendSchedule : Nat → List Nat → List Nat
  | 0, ws => ws
  | fuel + 1, ws =>
      let i := ws.length
      let w := add32
        (add32 (ws.getD (i - 16) 0) (smallSigma0 (ws.getD (i - 15) 0)))
        (add32 (ws.getD (i - 7) 0) (smallSigma1 (ws.getD (i - 2) 0)))
      extendSchedule fuel (ws ++ [w])

/-- The eight 32-bit working variables of SHA-256 compression. -/
structure Sha256State where
  a : Nat
  b : Nat
  c : Nat
  d : Nat
  e : Nat
  f : Nat
  g : Nat
  h : Nat
deriving DecidableEq

/-- The SHA-256 initial hash value. -/
def sha256Init : Sha256State :=
  ⟨1779033703, 3144134277, 1013904242, 2773480762,
   1359893119, 2600822924, 528734635, 1541459225⟩

/-- One SHA-256 compression round. -/
def sha256Round (s : Sha256State) (k w : Nat) : Sha256State :=
  let t1 := add32 (add32 s.h (bigSigma1 s.e))
      (add32 (sha256Ch s.e s.f s.g) (add32 k w))
  let t2 := add32 (bigSigma0 s.a) (sha256Maj s.a s.b s.c)
  ⟨add32 t1 t2, s.a, s.b, s.c, add32 s.d t1, s.e, s.f, s.g⟩

/-- Compress one 64-byte block into the running state. -/
def sha256Compress (st : Sha256State) (block : List Nat) : Sha256State :=
  let ws := extendSchedule 48 (bytesToWords block)
  let t := (sha256K.zip ws).foldl (fun s kw => sha256Round s kw.1 kw.2) st
  ⟨add32 st.a t.a, add32 st.b t.b, add32 st.c t.c, add32 st.d t.d,
   add32 st.e t.e, add32 st.f t.f, add32 st.g t.g, add32 st.h t.h⟩

/-- Split a byte list into 64-byte blocks (`fuel` bounds the recursion and is
instantiated with the list length). -/
def chunk64 : Nat → List Nat → List (List Nat)
  | 0, _ => []
  | _, [] => []
  | fuel + 1, l => l.take 64 :: chunk64 fuel (l.drop 64)

/-- Big-endian bytes of a 32-bit word. -/
def wordBytes (w : Nat) : List Nat :=
  [w >>> 24 % 256, w >>> 16 % 256, w >>> 8 % 256, w % 256]

/-- SHA-256 of a byte list, as its 32 digest bytes. -/
def sha256 (msg : List Nat) : List Nat :=
  let padded := sha256Pad msg
  let st := (chunk64 padded.length padded).foldl sha256Compress sha256Init
  wordBytes st.a ++ wordBytes st.b ++ wordBytes st.c ++ wordBytes st.d ++
  wordBytes st.e ++ wordBytes st.f ++ wordBytes st.g ++ wordBytes st.h

/-- HMAC-SHA256 (Go `hmac.New(sha256.New, key)` followed by `Write`/`Sum`). -/
def hmacSha256 (key msg : List Nat) : List Nat :=
  let k0 := if key.length > 64 then sha256 key else key
  let kpad := k0 ++ List.replicate (64 - k0.length) 0
  sha256 ((kpad.map fun b => b ^^^ 0x5c) ++
    sha256 ((kpad.map fun b => b ^^^ 0x36) ++ msg))

/-! ## The signing subsystem (`internal/auth`)

`Sign` reads the clock only when the request carries no timestamp; the
clock is passed explicitly as `now` (Unix seconds for the HMAC signer,
Unix milliseconds for the MPC signer), which is the only effect the Go
code performs. -/

/-- `auth.SignRequest`: one outbound call to be authenticated. `body` is
`none` for a nil Go slice and `some bs` for an allocated slice. -/
structure SignRequest where
  method : String
  path : String
  body : Option (List Nat)
  timestamp : String

/-- `auth.SignResult`: headers and query parameters to add to the request. -/
structure SignResult where
  headers : List (String × String)
  queryParams : List (String × String) := []
deriving DecidableEq

/-- `auth.HMACConfig`. -/
structure HMACConfig where
  apiKey : String
  secret : String
  passphrase : String
deriving DecidableEq

/-- `auth.HMACSigner`: immutable configuration captured at construction. -/
structure HMACSigner where
  config : HMACConfig
deriving DecidableEq

/-- `auth.NewHMACSigner`: rejects empty api key, secret, or passphrase, and
a secret that is not valid base64. -/
def NewHMACSigner (config : HMACConfig) : Except String HMACSigner :=
  if config.apiKey = "" then .error "API key is required"
  else if config.secret = "" then .error "secret is required"
  else if config.passphrase = "" then .error "passphrase is required"
  else
    match base64Decode config.secret with
    | .error _ => .error "secret must be valid base64"
    | .ok _ => .ok ⟨config⟩

/-- `auth.HMACSigner.Sign`: prehash is `timestamp + method + path + body`
with no delimiters; the signature is base64 of HMAC-SHA256 under the
base64-decoded secret. `now` is the Unix-seconds clock used only when the
request has no timestamp. -/
def HMACSigner.Sign (s : HMACSigner) (now : Nat) (req : SignRequest) :
    Except String SignResult :=
  let timestamp := if req.timestamp = "" then toString now else req.timestamp
  let body := bodyBytes req.body
  let prehash := strBytes timestamp ++ strBytes req.method ++ strBytes req.path ++ body
  match base64Decode s.config.secret with
  | .error _ => .error "failed to decode secret"
  | .ok decodedSecret =>
      let signatureB64 := base64Encode (hmacSha256 decodedSecret prehash)
      .ok { headers :=
        [("CB-ACCESS-KEY", s.config.apiKey),
         ("CB-ACCESS-SIGN", signatureB64),
         ("CB-ACCESS-TIMESTAMP", timestamp),
         ("CB-ACCESS-PASSPHRASE", s.config.passphrase)] }

/-- `auth.MPCConfig`: the external signing delegate is held as an `Option`
to mirror the Go nil-function check at construction. -/
structure MPCConfig where
  apiKey : String
  signerFunc : Option (List Nat → Except String String)

/-- `auth.MPCSigner`: the api key and the (present) signing delegate. -/
structure MPCSigner where
  apiKey : String
  signerFunc : List Nat → Except String String

/-- `auth.NewMPCSigner`: rejects an empty api key and an absent delegate. -/
def NewMPCSigner (config : MPCConfig) : Except String MPCSigner :=
  if config.apiKey = "" then .error "API key is required"
  else
    match config.signerFunc with
    | none => .error "signer function is required"
    | some f => .ok ⟨config.apiKey, f⟩

/-- The message bytes `MPCSigner.Sign` hands to the external delegate:
`timestamp + method + path + body` with no delimiters, the timestamp
defaulting to the Unix-milliseconds clock `now` when absent. -/
def mpcMessage (now : Nat) (req : SignRequest) : List Nat :=
  let timestamp := if req.timestamp = "" then toString now else req.timestamp
  strBytes timestamp ++ strBytes req.method ++ strBytes req.path ++ bodyBytes req.body

/-- `auth.MPCSigner.Sign`: invokes the external delegate on `mpcMessage`
and wraps its failure; on success emits the three Fordefi headers. -/
def MPCSigner.Sign (s : MPCSigner) (now : Nat) (req : SignRequest) :
    Except String SignResult :=
  let timestamp := if req.timestamp = "" then toString now else req.timestamp
  match s.signerFunc (mpcMessage now req) with
  | .error e => .error ("MPC signing failed: " ++ e)
  | .ok signature =>
      .ok { headers :=
        [("X-API-KEY", s.apiKey),
         ("X-TIMESTAMP", timestamp),
         ("X-SIGNATURE", signature)] }

/-! ## Shared normalizer parsing utilities (`internal/normalizer`) -/

/-- A decimal digit, by code point (48 to 57). -/
def isDigitChar (c : Char) : Bool := 48 ≤ c.toNat && c.toNat ≤ 57

/-- Numeric value of a digit character. -/
def digitVal (c : Char) : Nat := c.toNat - 48

/-- Value of a digit run. -/
def digitsToNat (ds : List Char) : Nat :=
  ds.foldl (fun acc c => acc * 10 + digitVal c) 0

/-- Go `unicode.IsSpace` restricted to the code points that can occur in
the venue strings of the claims (ASCII whitespace plus NEL and NBSP; the
remaining Unicode space category is irrelevant here). -/
def isGoSpace (c : Char) : Bool :=
  c == ' ' || c == '\t' || c == '\n' || c == '\r' ||
  c.toNat == 11 || c.toNat == 12 || c.toNat == 0x85 || c.toNat == 0xA0

/-- Go `strings.TrimSpace`. -/
def goTrimSpace (s : String) : String :=
  String.mk (((s.data.dropWhile isGoSpace).reverse.dropWhile isGoSpace).reverse)

/-- `normalizer.isNumeric`: only digits after an optional leading minus,
and at least one digit. -/
def isNumeric (s : String) : Bool :=
  match s.data with
  | [] => false
  | c :: cs =>
      let rest := if c = '-' then cs else c :: cs
      !rest.isEmpty && rest.all isDigitChar

/-- Go `strconv.ParseInt(s, 10, 64)`: optional sign, a non-empty digit
run, and an `int64` range check. -/
def goParseInt64 (s : String) : Except String Int :=
  let (neg, ds) :=
    match s.data with
    | '-' :: r => (true, r)
    | '+' :: r => (false, r)
    | r => (false, r)
  if ds.isEmpty || !ds.all isDigitChar then .error "invalid syntax"
  else
    let v : Int := if neg then -(digitsToNat ds : Int) else (digitsToNat ds : Int)
    if v < -(2 ^ 63) || 2 ^ 63 - 1 < v then .error "value out of range"
    else .ok v

/-- `normalizer.parseUnixTimestamp`: magnitude thresholds pick the unit
(seconds below `1e11`, milliseconds below `1e14`, microseconds below
`1e17`, error above). The result is the epoch offset of the instant in
nanoseconds, which is how `time.Unix(sec, nsec)` is represented here; Go
`/` and `%` truncate toward zero, hence `Int.tdiv` / `Int.tmod`. -/
def parseUnixTimestamp (s : String) : Except String Int :=
  match goParseInt64 s with
  | .error _ => .error "invalid unix timestamp"
  | .ok n =>
      if n < 100000000000 then
        .ok (n * 1000000000)
      else if n < 100000000000000 then
        .ok (Int.tdiv n 1000 * 1000000000 + Int.tmod n 1000 * 1000000)
      else if n < 100000000000000000 then
        .ok (Int.tdiv n 1000000 * 1000000000 + Int.tmod n 1000000 * 1000)
      else .error "unix timestamp out of reasonable range"

/-- `normalizer.ParseTimestamp`. The ordered calendar-format loop
(`time.RFC3339` and six variants tried with `time.Parse`) lives in the Go
standard library, outside this repository, and is abstracted as
`parseCalendar`; the theorems below quantify over it. The result instant
is an epoch-nanosecond offset, `none` meaning "no value". -/
def ParseTimestamp (parseCalendar : String → Option Int) (s : String) :
    Except String (Option Int) :=
  let t := goTrimSpace s
  if t = "" ∨ t = "null" then .ok none
  else if isNumeric t then
    match parseUnixTimestamp t with
    | .error e => .error e
    | .ok ns => .ok (some ns)
  else
    match parseCalendar t with
    | some ns => .ok (some ns)
    | none => .error "unable to parse timestamp"

/-- Split the leading digit run off a character list. -/
def takeDigits : List Char → List Char × List Char
  | [] => ([], [])
  | c :: cs =>
      if isDigitChar c then
        let (d, r) := takeDigits cs
        (c :: d, r)
      else ([], c :: cs)

/-- The largest magnitude `strconv.ParseFloat` accepts without an
`ErrRange` overflow, up to the half-ULP boundary: the numeral is
`2 ^ 1024`, written out so elaboration never unfolds the power. -/
def qMaxFloat : ℚ := mkRat 179769313486231590772930519078902473361797697894230657273430081157732675805500963132708477322407536021120113879871393357658789768814416622492847430639474124377767893424865485276302219601246094119453082952085005768838150682342462881473913110540827237163350510684586298239947245938479716304835356329624224137216 1

/-- The exact rational `sign * mantissaDigits / 10 ^ fracLen * 10 ^ exp`,
built with `mkRat` (the Batteries field operations on `ℚ` are
`irreducible`, so the parser assembles the fraction directly). -/
def decimalValue (neg : Bool) (mantissa : Nat) (fracLen : Nat)
    (eneg : Bool) (ex : Nat) : ℚ :=
  let m : Int := if neg then -(mantissa : Int) else (mantissa : Int)
  if eneg then mkRat m (10 ^ (fracLen + ex))
  else mkRat (m * 10 ^ ex) (10 ^ fracLen)

/-- The finite-value syntax accepted by Go `strconv.ParseFloat`, read as
an exact rational: optional sign, digits with an optional fraction, and an
optional decimal exponent. `NaN` / `Inf` spellings and values overflowing
`float64` are errors here, exactly where `ParseDecimal` rejects them (the
Go code reaches the rejection through `math.IsNaN` / `math.IsInf` or an
`ErrRange` from `ParseFloat`; either way the call errors). Binary
rounding to the nearest `float64` is not modelled: values stay exact. -/
def parseFloatQ (s : String) : Except String ℚ :=
  let (neg, cs) :=
    match s.data with
    | '-' :: r => (true, r)
    | '+' :: r => (false, r)
    | r => (false, r)
  let lower := cs.map fun c => if 65 ≤ c.toNat && c.toNat ≤ 90 then Char.ofNat (c.toNat + 32) else c
  if lower = "inf".data ∨ lower = "infinity".data ∨ lower = "nan".data then
    .error "NaN or Inf"
  else
    let (intDs, cs1) := takeDigits cs
    let (fracDs, cs2) :=
      match cs1 with
      | '.' :: r => takeDigits r
      | r => ([], r)
    if intDs.isEmpty && fracDs.isEmpty then .error "invalid syntax"
    else
      let mant := digitsToNat (intDs ++ fracDs)
      match cs2 with
      | [] =>
          let v := decimalValue neg mant fracDs.length false 0
          if v < -qMaxFloat ∨ qMaxFloat < v then .error "value out of range"
          else .ok v
      | e :: r =>
          if e = 'e' || e = 'E' then
            let (eneg, r1) :=
              match r with
              | '-' :: r2 => (true, r2)
              | '+' :: r2 => (false, r2)
              | r2 => (false, r2)
            let (expDs, r2) := takeDigits r1
            if expDs.isEmpty || !r2.isEmpty then .error "invalid syntax"
            else
              let v := decimalValue neg mant fracDs.length eneg (digitsToNat expDs)
              if v < -qMaxFloat ∨ qMaxFloat < v then .error "value out of range"
              else .ok v
          else .error "invalid syntax"

/-- `normalizer.ParseDecimal`: empty and `"null"` are zero; otherwise the
trimmed input is parsed as a decimal, with NaN/Inf and malformed syntax
rejected. `float64` values are modelled as exact rationals. -/
def ParseDecimal (s : String) : Except String ℚ :=
  let t := goTrimSpace s
  if t = "" ∨ t = "null" then .ok 0
  else parseFloatQ t

/-- `normalizer.ParseDecimalOrZero`. -/
def ParseDecimalOrZero (s : String) : ℚ :=
  match ParseDecimal s with
  | .ok f => f
  | .error _ => 0

/-! ## Venue error classification (`normalizer/coinbase` and `normalizer/prime`)

`json.Unmarshal` lives outside this repository and is abstracted as an
`unmarshal` parameter mapping a body to the parsed venue error record
(`none` when unmarshalling fails); the theorems quantify over it. The
formatted message text carried inside the returned Go errors plays no
role in classification and is not modelled. -/

/-- The classification of one venue error: the three venue-error kinds,
or the bare `fmt.Errorf` error returned for an empty or unparseable
body. -/
inductive VenueError where
  | permanent (code : String)
  | temporary (code : String)
  | rateLimit (code : String)
  | unclassified (status : Nat) (body : String)
deriving DecidableEq

/-- Whether a classification is the rate-limit kind. -/
def VenueError.isRateLimitErr : VenueError → Bool
  | .rateLimit _ => true
  | _ => false

/-- Whether a classification is the permanent kind. -/
def VenueError.isPermanentErr : VenueError → Bool
  | .permanent _ => true
  | _ => false

/-- `coinbase.CoinbaseError`: the parsed error body. -/
structure CoinbaseError where
  error : String
  message : String
  errorDetails : String
  previewFailure : String
  newOrderFailure : String
  editFailure : String
deriving DecidableEq

/-- Byte-wise ASCII lowercasing, Go `toLower` in `coinbase/errors.go`. -/
def goToLower (s : String) : String :=
  String.mk (s.data.map fun c =>
    if 65 ≤ c.toNat && c.toNat ≤ 90 then Char.ofNat (c.toNat + 32) else c)

/-- Substring scan over character lists (the loop body of Go `contains`:
some window of `l` equals `sub`). -/
def containsChars (sub : List Char) : List Char → Bool
  | [] => List.isPrefixOf sub []
  | c :: t => List.isPrefixOf sub (c :: t) || containsChars sub t

/-- Go `contains` in `coinbase/errors.go`: case-insensitive substring
match. -/
def goContains (s sub : String) : Bool :=
  containsChars (goToLower sub).data (goToLower s).data

/-- The coinbase list of client-caused keywords. -/
def coinbaseClientErrorKeywords : List String :=
  ["invalid", "missing", "insufficient", "exceed", "too small", "too large",
   "not allowed", "unsupported", "duplicate", "malformed"]

/-- `coinbase.isClientError`: some keyword occurs, case-insensitively, in
the concatenation of the error, message, and details fields. -/
def coinbaseIsClientError (cbErr : CoinbaseError) : Bool :=
  let msg := cbErr.error ++ " " ++ cbErr.message ++ " " ++ cbErr.errorDetails
  coinbaseClientErrorKeywords.any fun kw => goContains msg kw

/-- `coinbase.classifyError`. -/
def coinbaseClassifyError (statusCode : Nat) (cbErr : CoinbaseError) : VenueError :=
  if statusCode = 401 || statusCode = 403 then .permanent "AUTH_FAILURE"
  else if statusCode = 429 then .rateLimit "RATE_LIMIT"
  else if statusCode = 400 then
    if coinbaseIsClientError cbErr then .permanent "INVALID_REQUEST"
    else .temporary "BAD_REQUEST"
  else if statusCode = 404 then .permanent "NOT_FOUND"
  else if statusCode = 500 || statusCode = 503 || statusCode = 502 || statusCode = 504 then
    .temporary "SERVER_ERROR"
  else .temporary "UNKNOWN"

/-- `coinbase.NormalizeError`: a bare error for an empty or unparseable
body, a classified error otherwise. -/
def coinbaseNormalizeError (unmarshal : String → Option CoinbaseError)
    (statusCode : Nat) (body : String) : VenueError :=
  if body = "" then .unclassified statusCode body
  else
    match unmarshal body with
    | none => .unclassified statusCode body
    | some cbErr => coinbaseClassifyError statusCode cbErr

/-- `prime.PrimeError`: the parsed error body (the `details` map feeds
only the message text and is not modelled). -/
structure PrimeError where
  message : String
  code : String
deriving DecidableEq

/-- The keys of the `clientErrorCodes` map in `prime.isClientError`. -/
def primeClientErrorCodes : List String :=
  ["INVALID_ARGUMENT", "INVALID_PRODUCT", "INVALID_ORDER", "INVALID_ORDER_ID",
   "INVALID_PORTFOLIO", "INVALID_PORTFOLIO_ID", "INSUFFICIENT_FUNDS",
   "ORDER_NOT_FOUND", "VALIDATION_ERROR"]

/-- `prime.isClientError`: an exact lookup of the error code in the fixed
map (not a substring match). -/
def primeIsClientError (primeErr : PrimeError) : Bool :=
  primeClientErrorCodes.contains primeErr.code

/-- `prime.classifyError`. -/
def primeClassifyError (statusCode : Nat) (primeErr : PrimeError) : VenueError :=
  if statusCode = 401 || statusCode = 403 then .permanent primeErr.code
  else if statusCode = 429 then .rateLimit primeErr.code
  else if statusCode = 400 then
    if primeIsClientError primeErr then .permanent primeErr.code
    else .temporary primeErr.code
  else if statusCode = 404 then .permanent primeErr.code
  else if statusCode = 500 || statusCode = 503 || statusCode = 502 then
    .temporary primeErr.code
  else .temporary primeErr.code

/-- `prime.NormalizeError`. -/
def primeNormalizeError (unmarshal : String → Option PrimeError)
    (statusCode : Nat) (body : String) : VenueError :=
  if body = "" then .unclassified statusCode body
  else
    match unmarshal body with
    | none => .unclassified statusCode body
    | some primeErr => primeClassifyError statusCode primeErr

/-! ## Order-book normalization (`coinbase` and `prime`)

Level arrays arrive as heterogeneous JSON arrays. A decoded JSON array
element is a string, a number, or something else (the error branch of the
Go type switches); `float64` numbers are modelled as exact rationals. The
JSON decode of the whole response and the clock-dependent timestamp field
sit outside the modelled core, which starts from the decoded bid/ask
arrays — the part the claims are about. -/

/-- One decoded JSON array element as the Go type switches see it. -/
inductive JVal where
  | str (s : String)
  | num (x : ℚ)
  | other
deriving DecidableEq

/-- `marketsv1.OrderBookLevel`, price and quantity always present. -/
structure OrderBookLevel where
  price : ℚ
  quantity : ℚ
  orderCount : Option Int := none
deriving DecidableEq

/-- The canonical order-book record: every derived field is optional. -/
structure OrderBook where
  venueId : String
  venueSymbol : String
  bids : List OrderBookLevel
  asks : List OrderBookLevel
  bestBid : Option ℚ
  bestAsk : Option ℚ
  spread : Option ℚ
  midPrice : Option ℚ
deriving DecidableEq

/-- Round the fraction `n / d` (with `d > 0`) to the nearest integer,
ties to even (the rounding `strconv` applies when formatting a value with
a fixed precision): `f` is the floor and `r2` twice the remainder. -/
def roundHalfEvenFrac (n d : Int) : Int :=
  let f := Int.fdiv n d
  let r2 := 2 * (n - f * d)
  if r2 < d then f
  else if d < r2 then f + 1
  else if f % 2 = 0 then f else f + 1

/-- Zero-pad a numeral to six digits. -/
def zeroPad6 (n : Nat) : String :=
  let s := toString n
  String.mk (List.replicate (6 - s.length) '0') ++ s

/-- Go `fmt.Sprintf` with the `%f` verb: six fraction digits, i.e. the
rounding of `q * 10 ^ 6` to an integer, printed with the point inserted.
(Go keeps a minus sign on a negative value rounding to zero; that sign
never survives the reparse, so it is dropped here.) -/
def goFormatF (q : ℚ) : String :=
  let r := roundHalfEvenFrac (q.num * 1000000) (q.den : Int)
  (if r < 0 then "-" else "") ++ toString (r.natAbs / 1000000) ++ "." ++
    zeroPad6 (r.natAbs % 1000000)

/-- Truncate a rational toward zero (Go `int32(f)` on the in-range values
that occur). -/
def ratTrunc (q : ℚ) : Int := Int.tdiv q.num (q.den : Int)

/-- The string a coinbase level element contributes to
`ParseDecimalOrZero`: a string element is used as is, a number is pushed
through `fmt.Sprintf` with the `%f` verb, anything else is the error
branch. -/
def cbLevelElemStr : JVal → Except String String
  | .str s => .ok s
  | .num f => .ok (goFormatF f)
  | .other => .error "invalid element type"

/-- One iteration of the loop in `coinbase.parseOrderBookLevels`. -/
def coinbaseParseLevel (level : List JVal) : Except String OrderBookLevel :=
  match level with
  | a :: b :: rest =>
      match cbLevelElemStr a with
      | .error _ => .error "invalid price type"
      | .ok priceStr =>
          match cbLevelElemStr b with
          | .error _ => .error "invalid quantity type"
          | .ok quantityStr =>
              let price := ParseDecimalOrZero priceStr
              let quantity := ParseDecimalOrZero quantityStr
              let oc : Option Int :=
                match rest with
                | [] => none
                | v :: _ =>
                    match v with
                    | .num f => some (ratTrunc f)
                    | .str s =>
                        if ParseDecimalOrZero s > 0 then
                          some (ratTrunc (ParseDecimalOrZero s))
                        else none
                    | .other => none
              .ok ⟨price, quantity, oc⟩
  | _ => .error "expected at least 2 elements"

/-- `coinbase.parseOrderBookLevels`: every level converts or the whole
call errors. -/
def coinbaseParseOrderBookLevels : List (List JVal) → Except String (List OrderBookLevel)
  | [] => .ok []
  | level :: rest =>
      match coinbaseParseLevel level with
      | .error e => .error e
      | .ok l =>
          match coinbaseParseOrderBookLevels rest with
          | .error e => .error e
          | .ok ls => .ok (l :: ls)

/-- The numeric value of one prime level element (`prime.
parseOrderBookLevels` parses strings with `ParseDecimalOrZero` and takes
numbers directly). -/
def primeLevelElemVal : JVal → Except String ℚ
  | .str s => .ok (ParseDecimalOrZero s)
  | .num f => .ok f
  | .other => .error "invalid element type"

/-- `prime.parseOrderBookLevels`: converts each level, silently skipping
a level whose parsed price and size are both zero. -/
def primeParseOrderBookLevels : List (List JVal) → Except String (List OrderBookLevel)
  | [] => .ok []
  | level :: rest =>
      match level with
      | a :: b :: _ =>
          match primeLevelElemVal a with
          | .error _ => .error "invalid price type"
          | .ok price =>
              match primeLevelElemVal b with
              | .error _ => .error "invalid size type"
              | .ok size =>
                  match primeParseOrderBookLevels rest with
                  | .error e => .error e
                  | .ok ls =>
                      if price = 0 ∧ size = 0 then .ok ls
                      else .ok (⟨price, size, none⟩ :: ls)
      | _ => .error "expected at least 2 elements"

/-- Executable subtraction on `ℚ` (equal to `Sub.sub` by `qSub_eq`; the
Batteries field operations are `irreducible` and would block kernel
evaluation of the concrete instances). -/
def qSub (a b : ℚ) : ℚ :=
  mkRat (a.num * (b.den : Int) - b.num * (a.den : Int)) (a.den * b.den)

/-- Executable addition on `ℚ` (equal to `Add.add` by `qAdd_eq`). -/
def qAdd (a b : ℚ) : ℚ :=
  mkRat (a.num * (b.den : Int) + b.num * (a.den : Int)) (a.den * b.den)

/-- Executable halving on `ℚ` (equal to division by two by `qHalf_eq`). -/
def qHalf (a : ℚ) : ℚ := mkRat a.num (a.den * 2)

/-- The derived-field computation shared verbatim by both
`NormalizeOrderBook` implementations (best bid/ask from the first
converted levels, spread `bestAsk - bestBid` and mid price
`(bestBid + bestAsk) / 2` only when both are present). -/
def mkOrderBook (venueId venueSymbol : String)
    (bids asks : List OrderBookLevel) : OrderBook :=
  let bestBid := bids.head?.map (·.price)
  let bestAsk := asks.head?.map (·.price)
  let spread :=
    match bestBid, bestAsk with
    | some b, some a => some (qSub a b)
    | _, _ => none
  let midPrice :=
    match bestBid, bestAsk with
    | some b, some a => some (qHalf (qAdd b a))
    | _, _ => none
  ⟨venueId, venueSymbol, bids, asks, bestBid, bestAsk, spread, midPrice⟩

/-- `coinbase.NormalizeOrderBook` from the decoded bid/ask arrays on. -/
def coinbaseNormalizeOrderBook (productID : String)
    (bids asks : List (List JVal)) : Except String OrderBook :=
  match coinbaseParseOrderBookLevels bids with
  | .error _ => .error "failed to parse bids"
  | .ok bs =>
      match coinbaseParseOrderBookLevels asks with
      | .error _ => .error "failed to parse asks"
      | .ok as => .ok (mkOrderBook "coinbase" productID bs as)

/-- `prime.NormalizeOrderBook` from the decoded bid/ask arrays on. -/
def primeNormalizeOrderBook (productID : String)
    (bids asks : List (List JVal)) : Except String OrderBook :=
  match primeParseOrderBookLevels bids with
  | .error _ => .error "failed to parse bids"
  | .ok bs =>
      match primeParseOrderBookLevels asks with
      | .error _ => .error "failed to parse asks"
      | .ok as => .ok (mkOrderBook "prime" productID bs as)

/-! ## Bridging lemmas for the executable rational operations -/

/-- `qSub` is subtraction. -/
theorem qSub_eq (a b : ℚ) : qSub a b = a - b := by
  have ha : ((a.den : ℚ)) ≠ 0 := by exact_mod_cast a.den_nz
  have hb : ((b.den : ℚ)) ≠ 0 := by exact_mod_cast b.den_nz
  rw [qSub, Rat.mkRat_eq_div]
  conv_rhs => rw [← Rat.num_div_den a, ← Rat.num_div_den b]
  rw [div_sub_div _ _ ha hb]
  push_cast
  ring_nf

/-- `qAdd` is addition. -/
theorem qAdd_eq (a b : ℚ) : qAdd a b = a + b := by
  have ha : ((a.den : ℚ)) ≠ 0 := by exact_mod_cast a.den_nz
  have hb : ((b.den : ℚ)) ≠ 0 := by exact_mod_cast b.den_nz
  rw [qAdd, Rat.mkRat_eq_div]
  conv_rhs => rw [← Rat.num_div_den a, ← Rat.num_div_den b]
  rw [div_add_div _ _ ha hb]
  push_cast
  ring_nf

/-- `qHalf` is division by two. -/
theorem qHalf_eq (a : ℚ) : qHalf a = a / 2 := by
  rw [qHalf, Rat.mkRat_eq_div]
  conv_rhs => rw [← Rat.num_div_den a]
  rw [div_div]
  push_cast
  ring_nf

/-! ## Claim theorems -/

set_option maxRecDepth 100000 in
/-- C1: for the HMAC signer constructed with secret `"c2VjcmV0"` (the
base64 encoding of the literal string `"secret"`), signing a GET of
`/orders` with an empty body and timestamp `"1234567890"` yields the
CB-ACCESS-SIGN header value
`c0bz9rdYCiGfAsKzIyfvmtx6eU1fbWn3SVcwKIVqZM4=`, i.e.
base64 of HMAC-SHA256 over `"1234567890GET/orders"` keyed by
`"secret"`. -/
theorem C1_hmac_concrete_signature :
    (NewHMACSigner ⟨"test-key", "c2VjcmV0", "test-pass"⟩).bind
        (fun s => s.Sign 0 ⟨"GET", "/orders", some [], "1234567890"⟩)
      = .ok ⟨[("CB-ACCESS-KEY", "test-key"),
              ("CB-ACCESS-SIGN", "c0bz9rdYCiGfAsKzIyfvmtx6eU1fbWn3SVcwKIVqZM4="),
              ("CB-ACCESS-TIMESTAMP", "1234567890"),
              ("CB-ACCESS-PASSPHRASE", "test-pass")], []⟩ := by
  decide

/-- C2: for every HMAC signer, clock value, method, path, and timestamp,
signing with an absent (nil) body and with an allocated empty body
produce identical results — both bodies contribute the empty byte string
to the pre-hash. -/
theorem C2_hmac_nil_empty_body_agree (s : HMACSigner) (now : Nat)
    (method path timestamp : String) :
    s.Sign now ⟨method, path, none, timestamp⟩
      = s.Sign now ⟨method, path, some [], timestamp⟩ := rfl

/-- C3: for every MPC sign call with a caller-supplied timestamp, the
message handed to the external delegate is the delimiter-free
concatenation `timestamp ++ method ++ path ++ body`; the signer invokes
the delegate on exactly that message; and for POST
`/api/v1/orders` with the JSON body and timestamp `"1234567890"` the
message is the literal concatenation from the claim. -/
theorem C3_mpc_message_concat (now : Nat) (req : SignRequest)
    (h : req.timestamp ≠ "") :
    mpcMessage now req
      = strBytes req.timestamp ++ strBytes req.method ++ strBytes req.path
          ++ bodyBytes req.body ∧
    (∀ (m : MPCSigner) (sig : String),
        m.signerFunc (mpcMessage now req) = .ok sig →
        m.Sign now req
          = .ok ⟨[("X-API-KEY", m.apiKey), ("X-TIMESTAMP", req.timestamp),
                  ("X-SIGNATURE", sig)], []⟩) ∧
    mpcMessage 0 ⟨"POST", "/api/v1/orders",
        some (strBytes "\x7b\"symbol\":\"BTC-USD\"\x7d"), "1234567890"⟩
      = strBytes "1234567890POST/api/v1/orders\x7b\"symbol\":\"BTC-USD\"\x7d" := by
  refine ⟨?_, ?_, by decide⟩
  · unfold mpcMessage
    rw [if_neg h]
  · intro m sig hsig
    unfold MPCSigner.Sign
    rw [hsig, if_neg h]

/-- C3 witness: the general conjuncts applied at the concrete POST
request of the claim. -/
theorem C3_mpc_message_concat_witness :
    mpcMessage 0 ⟨"POST", "/api/v1/orders",
        some (strBytes "\x7b\"symbol\":\"BTC-USD\"\x7d"), "1234567890"⟩
      = strBytes "1234567890" ++ strBytes "POST" ++ strBytes "/api/v1/orders"
          ++ bodyBytes (some (strBytes "\x7b\"symbol\":\"BTC-USD\"\x7d")) :=
  (C3_mpc_message_concat 0
    ⟨"POST", "/api/v1/orders", some (strBytes "\x7b\"symbol\":\"BTC-USD\"\x7d"),
     "1234567890"⟩ (by decide)).1

/-- C8: a successfully constructed HMAC signer can never fail at sign
time: construction already validated the same base64 secret that `Sign`
decodes, so the sign-time error branch is unreachable. -/
theorem C8_hmac_sign_never_fails (cfg : HMACConfig) (s : HMACSigner)
    (h : NewHMACSigner cfg = .ok s) (now : Nat) (req : SignRequest) :
    ∃ r, s.Sign now req = .ok r := by
  unfold NewHMACSigner at h
  split_ifs at h
  cases hdec : base64Decode cfg.secret with
  | error e => rw [hdec] at h; simp at h
  | ok ds =>
      rw [hdec] at h
      simp only [Except.ok.injEq] at h
      subst h
      unfold HMACSigner.Sign
      rw [hdec]
      exact ⟨_, rfl⟩

/-- C8 witness: the theorem applied to a concrete valid configuration. -/
theorem C8_hmac_sign_never_fails_witness :
    ∃ r, HMACSigner.Sign ⟨⟨"k", "c2VjcmV0", "p"⟩⟩ 0 ⟨"GET", "/x", none, "1"⟩ = .ok r :=
  C8_hmac_sign_never_fails ⟨"k", "c2VjcmV0", "p"⟩ _ (by decide) 0 ⟨"GET", "/x", none, "1"⟩

/-- C4 counterexample: at status 429 with an empty body (a body the claim
explicitly includes), both normalizers return the bare unclassified
error, not a RateLimit classification; likewise for an unparseable
body. -/
theorem C4_429_empty_body_counterexample :
    coinbaseNormalizeError (fun _ => none) 429 "" = .unclassified 429 "" ∧
    (coinbaseNormalizeError (fun _ => none) 429 "").isRateLimitErr = false ∧
    (coinbaseNormalizeError (fun _ => none) 429 "not json").isRateLimitErr = false ∧
    (primeNormalizeError (fun _ => none) 429 "").isRateLimitErr = false := by
  decide

/-- C4 (amended): at status 429 both normalizers return the RateLimit
classification for every non-empty body that unmarshals as the venue
error shape, whatever its content; an empty or unparseable body instead
yields the bare unclassified error. -/
theorem C4_429_rate_limit (u : String → Option CoinbaseError)
    (v : String → Option PrimeError) (body : String)
    (e : CoinbaseError) (p : PrimeError) (hb : body ≠ "")
    (hu : u body = some e) (hv : v body = some p) :
    coinbaseNormalizeError u 429 body = .rateLimit "RATE_LIMIT" ∧
    primeNormalizeError v 429 body = .rateLimit p.code ∧
    coinbaseNormalizeError u 429 "" = .unclassified 429 "" ∧
    primeNormalizeError v 429 "" = .unclassified 429 "" := by
  refine ⟨?_, ?_, rfl, rfl⟩
  · unfold coinbaseNormalizeError
    rw [if_neg hb, hu]
    rfl
  · unfold primeNormalizeError
    rw [if_neg hb, hv]
    rfl

/-- C4 witness: the amended theorem at a concrete 429 response whose body
carries no rate-limit-related text at all. -/
theorem C4_429_rate_limit_witness :
    coinbaseNormalizeError
        (fun _ => some ⟨"weird", "totally unrelated text", "", "", "", ""⟩) 429 "x"
      = .rateLimit "RATE_LIMIT" ∧
    primeNormalizeError (fun _ => some ⟨"slow down", "RATE_LIMIT_EXCEEDED"⟩) 429 "x"
      = .rateLimit "RATE_LIMIT_EXCEEDED" :=
  have h := C4_429_rate_limit
    (fun _ => some ⟨"weird", "totally unrelated text", "", "", "", ""⟩)
    (fun _ => some ⟨"slow down", "RATE_LIMIT_EXCEEDED"⟩) "x"
    ⟨"weird", "totally unrelated text", "", "", "", ""⟩
    ⟨"slow down", "RATE_LIMIT_EXCEEDED"⟩ (by decide) rfl rfl
  ⟨h.1, h.2.1⟩

/-- C5 counterexample: the Prime normalizer does not use case-insensitive
substring matching at status 400 — it looks the error code up in a fixed
exact-match set. The code `INSUFFICIENT_BALANCE` contains the keyword
`insufficient` case-insensitively, yet Prime classifies the response
Temporary, contradicting the claimed "Permanent exactly when a keyword
matches by case-insensitive substring". -/
theorem C5_prime_substring_counterexample :
    primeNormalizeError
        (fun s => if s = "\x7b\"code\":\"INSUFFICIENT_BALANCE\"\x7d"
          then some ⟨"", "INSUFFICIENT_BALANCE"⟩ else none)
        400 "\x7b\"code\":\"INSUFFICIENT_BALANCE\"\x7d"
      = .temporary "INSUFFICIENT_BALANCE" ∧
    goContains "INSUFFICIENT_BALANCE" "insufficient" = true ∧
    (primeNormalizeError
        (fun s => if s = "\x7b\"code\":\"INSUFFICIENT_BALANCE\"\x7d"
          then some ⟨"", "INSUFFICIENT_BALANCE"⟩ else none)
        400 "\x7b\"code\":\"INSUFFICIENT_BALANCE\"\x7d").isPermanentErr = false := by
  decide

/-- C5 (amended): at status 400 with a parseable body, the Coinbase
normalizer is Permanent exactly when one of its ten client-caused
keywords occurs case-insensitively as a substring of the concatenated
error, message, and details fields; the Prime normalizer is Permanent
exactly when the error code is one of its nine fixed client-error codes
(an exact lookup, not a substring match). -/
theorem C5_400_classification (u : String → Option CoinbaseError)
    (v : String → Option PrimeError) (body : String)
    (e : CoinbaseError) (p : PrimeError) (hb : body ≠ "")
    (hu : u body = some e) (hv : v body = some p) :
    ((coinbaseNormalizeError u 400 body).isPermanentErr = true ↔
      ∃ kw ∈ coinbaseClientErrorKeywords,
        goContains (e.error ++ " " ++ e.message ++ " " ++ e.errorDetails) kw = true) ∧
    ((primeNormalizeError v 400 body).isPermanentErr = true ↔
      p.code ∈ primeClientErrorCodes) := by
  constructor
  · unfold coinbaseNormalizeError
    rw [if_neg hb, hu]
    unfold coinbaseClassifyError
    norm_num
    by_cases hce : coinbaseIsClientError e
    · rw [if_pos hce]
      simp only [VenueError.isPermanentErr, true_iff]
      simpa [coinbaseIsClientError, List.any_eq_true] using hce
    · rw [if_neg hce]
      simp only [VenueError.isPermanentErr, Bool.false_eq_true, false_iff]
      intro hex
      exact hce (by simpa [coinbaseIsClientError, List.any_eq_true] using hex)
  · unfold primeNormalizeError
    rw [if_neg hb, hv]
    unfold primeClassifyError
    norm_num
    by_cases hce : primeIsClientError p
    · rw [if_pos hce]
      simp only [VenueError.isPermanentErr, true_iff]
      simpa [primeIsClientError] using hce
    · rw [if_neg hce]
      simp only [VenueError.isPermanentErr, Bool.false_eq_true, false_iff]
      intro hex
      exact hce (by simpa [primeIsClientError] using hex)

/-- C5 witness: the amended characterization at a Coinbase 400 response
whose message contains "insufficient" (Permanent) and a Prime 400
response with the exact code INSUFFICIENT_FUNDS (Permanent). -/
theorem C5_400_classification_witness :
    ((coinbaseNormalizeError
        (fun _ => some ⟨"insufficient_funds", "Not enough balance", "", "", "", ""⟩)
        400 "x").isPermanentErr = true ↔
      ∃ kw ∈ coinbaseClientErrorKeywords,
        goContains ("insufficient_funds" ++ " " ++ "Not enough balance" ++ " " ++ "") kw
          = true) ∧
    ((primeNormalizeError (fun _ => some ⟨"no funds", "INSUFFICIENT_FUNDS"⟩)
        400 "x").isPermanentErr = true ↔
      "INSUFFICIENT_FUNDS" ∈ primeClientErrorCodes) :=
  C5_400_classification
    (fun _ => some ⟨"insufficient_funds", "Not enough balance", "", "", "", ""⟩)
    (fun _ => some ⟨"no funds", "INSUFFICIENT_FUNDS"⟩) "x"
    ⟨"insufficient_funds", "Not enough balance", "", "", "", ""⟩
    ⟨"no funds", "INSUFFICIENT_FUNDS"⟩ (by decide) rfl rfl

/-- A numeric trimmed string is neither empty nor the literal `null`. -/
theorem isNumeric_ne_empty_null {t : String} (h : isNumeric t = true) :
    t ≠ "" ∧ t ≠ "null" := by
  refine ⟨?_, ?_⟩ <;> rintro rfl <;> revert h <;> decide

/-- With a numeric trimmed input, `ParseTimestamp` takes the
`parseUnixTimestamp` path, whatever the calendar parser does. -/
theorem parseTimestamp_numeric (pc : String → Option Int) (s : String)
    (h : isNumeric (goTrimSpace s) = true) :
    ParseTimestamp pc s
      = match parseUnixTimestamp (goTrimSpace s) with
        | .error e => .error e
        | .ok ns => .ok (some ns) := by
  obtain ⟨h1, h2⟩ := isNumeric_ne_empty_null h
  unfold ParseTimestamp
  rw [if_neg (not_or.mpr ⟨h1, h2⟩), if_pos h]

/-- C6: `ParseTimestamp` returns no value (and no error) when the trimmed
input is empty or `null`; interprets a numeric value `n` as Unix seconds
below `1e11`, milliseconds below `1e14`, microseconds below `1e17`, and
errors above; maps `"1609459200"`, `"1609459200000"` and
`"1609459200000000"` to the same instant (1609459200 s after the epoch,
i.e. 2021-01-01T00:00:00Z = 18628 days of 86400 s); and errors on a
non-empty, non-null, non-numeric input that matches no calendar
format. -/
theorem C6_parse_timestamp_behaviour (pc : String → Option Int) (s : String) (n : Int) :
    ((goTrimSpace s = "" ∨ goTrimSpace s = "null") → ParseTimestamp pc s = .ok none) ∧
    (isNumeric (goTrimSpace s) = true → goParseInt64 (goTrimSpace s) = .ok n →
      (n < 100000000000 → ParseTimestamp pc s = .ok (some (n * 1000000000))) ∧
      (100000000000 ≤ n → n < 100000000000000 →
          ParseTimestamp pc s = .ok (some (n * 1000000))) ∧
      (100000000000000 ≤ n → n < 100000000000000000 →
          ParseTimestamp pc s = .ok (some (n * 1000))) ∧
      (100000000000000000 ≤ n → ∃ m, ParseTimestamp pc s = .error m)) ∧
    (ParseTimestamp pc "1609459200" = .ok (some 1609459200000000000) ∧
     ParseTimestamp pc "1609459200000" = .ok (some 1609459200000000000) ∧
     ParseTimestamp pc "1609459200000000" = .ok (some 1609459200000000000)) ∧
    (isNumeric (goTrimSpace s) = false → goTrimSpace s ≠ "" → goTrimSpace s ≠ "null" →
      pc (goTrimSpace s) = none →
      ParseTimestamp pc s = .error "unable to parse timestamp") := by
  refine ⟨?_, ?_, ⟨?_, ?_, ?_⟩, ?_⟩
  · intro h0
    unfold ParseTimestamp
    rw [if_pos h0]
  · intro hnum hp
    rw [parseTimestamp_numeric pc s hnum]
    unfold parseUnixTimestamp
    simp only [hp]
    refine ⟨fun hlt => ?_, fun hge hlt => ?_, fun hge hlt => ?_, fun hge => ?_⟩
    · rw [if_pos hlt]
    · rw [if_neg (not_lt.mpr hge), if_pos hlt]
      have harith : Int.tdiv n 1000 * 1000000000 + Int.tmod n 1000 * 1000000
          = n * 1000000 := by
        linear_combination 1000000 * Int.tdiv_add_tmod n 1000
      rw [harith]
    · rw [if_neg (not_lt.mpr (by omega : (100000000000 : Int) ≤ n)),
          if_neg (not_lt.mpr hge), if_pos hlt]
      have harith : Int.tdiv n 1000000 * 1000000000 + Int.tmod n 1000000 * 1000
          = n * 1000 := by
        linear_combination 1000 * Int.tdiv_add_tmod n 1000000
      rw [harith]
    · rw [if_neg (not_lt.mpr (by omega : (100000000000 : Int) ≤ n)),
          if_neg (not_lt.mpr (by omega : (100000000000000 : Int) ≤ n)),
          if_neg (not_lt.mpr hge)]
      exact ⟨_, rfl⟩
  · rw [parseTimestamp_numeric pc _ (by decide)]
    decide
  · rw [parseTimestamp_numeric pc _ (by decide)]
    decide
  · rw [parseTimestamp_numeric pc _ (by decide)]
    decide
  · intro hnotnum h1 h2 hpc
    unfold ParseTimestamp
    rw [if_neg (not_or.mpr ⟨h1, h2⟩), if_neg (by simp [hnotnum]), hpc]

/-- C6 witness: the millisecond branch applied at `"1609459200000"`. -/
theorem C6_parse_timestamp_behaviour_witness :
    ParseTimestamp (fun _ => none) "1609459200000"
      = .ok (some (1609459200000 * 1000000)) :=
  ((C6_parse_timestamp_behaviour (fun _ => none) "1609459200000"
      1609459200000).2.1 (by decide) (by decide)).2.1 (by decide) (by decide)

/-- C10: a numeric string with a leading minus parses successfully — the
numeric fast path accepts an optional leading `-`, every negative value
falls into the below-`1e11` seconds branch, and the resulting instant is
a strictly negative epoch offset, i.e. before 1970. -/
theorem C10_negative_numeric_timestamps (pc : String → Option Int) (s : String)
    (n : Int) (hnum : isNumeric (goTrimSpace s) = true)
    (hp : goParseInt64 (goTrimSpace s) = .ok n) (hneg : n < 0) :
    ParseTimestamp pc s = .ok (some (n * 1000000000)) ∧ n * 1000000000 < 0 := by
  refine ⟨?_, mul_neg_of_neg_of_pos hneg (by norm_num)⟩
  rw [parseTimestamp_numeric pc s hnum]
  unfold parseUnixTimestamp
  simp only [hp]
  rw [if_pos (by omega)]

/-- C10 witness: `"-5"` parses to five seconds before the epoch. -/
theorem C10_negative_numeric_timestamps_witness :
    ParseTimestamp (fun _ => none) "-5" = .ok (some (-5 * 1000000000)) ∧
    (-5 : Int) * 1000000000 < 0 :=
  C10_negative_numeric_timestamps (fun _ => none) "-5" (-5)
    (by decide) (by decide) (by decide)

/-- The field shape C7 asserts of a normalized book: best bid/ask are the
prices of the first converted levels, spread is best-ask minus best-bid
and mid price their average exactly when both sides are non-empty, and an
empty side leaves its best price, the spread, and the mid price absent. -/
def bookDerivedFieldsOk (bk : OrderBook) : Prop :=
  bk.bestBid = bk.bids.head?.map (·.price) ∧
  bk.bestAsk = bk.asks.head?.map (·.price) ∧
  (∀ x y, bk.bestBid = some x → bk.bestAsk = some y →
      bk.spread = some (y - x) ∧ bk.midPrice = some ((x + y) / 2)) ∧
  (bk.bids = [] → bk.bestBid = none ∧ bk.spread = none ∧ bk.midPrice = none) ∧
  (bk.asks = [] → bk.bestAsk = none ∧ bk.spread = none ∧ bk.midPrice = none)

/-- Every book built by the shared derived-field computation has the
shape of C7. -/
theorem mkOrderBook_fields (v sym : String) (bs as : List OrderBookLevel) :
    bookDerivedFieldsOk (mkOrderBook v sym bs as) := by
  unfold bookDerivedFieldsOk mkOrderBook
  cases bs with
  | nil => cases as <;> simp
  | cons b bt =>
      cases as with
      | nil => simp
      | cons a at1 =>
          show bookDerivedFieldsOk
            ⟨v, sym, b :: bt, a :: at1, some b.price, some a.price,
             some (qSub a.price b.price), some (qHalf (qAdd b.price a.price))⟩
          refine ⟨rfl, rfl, ?_, by simp, by simp⟩
          intro x y hx hy
          injection hx with hx1
          injection hy with hy1
          subst hx1
          subst hy1
          exact ⟨by rw [qSub_eq], by rw [qHalf_eq, qAdd_eq]⟩

set_option maxRecDepth 8000 in
/-- C7: for every successful order-book normalization on either venue,
best bid and best ask are the prices of the first converted levels,
spread and mid price are present exactly when both sides are non-empty
and then equal best-ask − best-bid and their average; concretely, bids
`[[50000, 1.5]]` and asks `[[50010, 1.2]]` give best-bid 50000, best-ask
50010, spread 10, mid 50005 on both venues, and an empty bid list leaves
best-bid, spread, and mid price absent. -/
theorem C7_orderbook_derived_fields (pid : String)
    (cbBids cbAsks pBids pAsks : List (List JVal)) (cb pb : OrderBook)
    (hc : coinbaseNormalizeOrderBook pid cbBids cbAsks = .ok cb)
    (hp : primeNormalizeOrderBook pid pBids pAsks = .ok pb) :
    (bookDerivedFieldsOk cb ∧ bookDerivedFieldsOk pb) ∧
    (coinbaseNormalizeOrderBook "BTC-USD"
          [[.num 50000, .num (mkRat 3 2)]] [[.num 50010, .num (mkRat 6 5)]]
        = .ok ⟨"coinbase", "BTC-USD", [⟨50000, mkRat 3 2, none⟩],
               [⟨50010, mkRat 6 5, none⟩], some 50000, some 50010,
               some 10, some 50005⟩ ∧
     primeNormalizeOrderBook "BTC-USD"
          [[.num 50000, .num (mkRat 3 2)]] [[.num 50010, .num (mkRat 6 5)]]
        = .ok ⟨"prime", "BTC-USD", [⟨50000, mkRat 3 2, none⟩],
               [⟨50010, mkRat 6 5, none⟩], some 50000, some 50010,
               some 10, some 50005⟩ ∧
     coinbaseNormalizeOrderBook "BTC-USD" [] [[.num 50010, .num (mkRat 6 5)]]
        = .ok ⟨"coinbase", "BTC-USD", [], [⟨50010, mkRat 6 5, none⟩],
               none, some 50010, none, none⟩) := by
  refine ⟨⟨?_, ?_⟩, by decide, by decide, by decide⟩
  · unfold coinbaseNormalizeOrderBook at hc
    cases h1 : coinbaseParseOrderBookLevels cbBids with
    | error e => rw [h1] at hc; simp at hc
    | ok bs =>
        rw [h1] at hc
        cases h2 : coinbaseParseOrderBookLevels cbAsks with
        | error e => rw [h2] at hc; simp at hc
        | ok as1 =>
            rw [h2] at hc
            simp only [Except.ok.injEq] at hc
            subst hc
            exact mkOrderBook_fields _ _ _ _
  · unfold primeNormalizeOrderBook at hp
    cases h1 : primeParseOrderBookLevels pBids with
    | error e => rw [h1] at hp; simp at hp
    | ok bs =>
        rw [h1] at hp
        cases h2 : primeParseOrderBookLevels pAsks with
        | error e => rw [h2] at hp; simp at hp
        | ok as1 =>
            rw [h2] at hp
            simp only [Except.ok.injEq] at hp
            subst hp
            exact mkOrderBook_fields _ _ _ _

set_option maxRecDepth 8000 in
/-- C7 witness: the general conjunct applied at the concrete books of the
claim. -/
theorem C7_orderbook_derived_fields_witness :
    bookDerivedFieldsOk ⟨"coinbase", "BTC-USD", [⟨50000, mkRat 3 2, none⟩],
        [⟨50010, mkRat 6 5, none⟩], some 50000, some 50010,
        some 10, some 50005⟩ ∧
    bookDerivedFieldsOk ⟨"prime", "BTC-USD", [⟨50000, mkRat 3 2, none⟩],
        [⟨50010, mkRat 6 5, none⟩], some 50000, some 50010,
        some 10, some 50005⟩ :=
  (C7_orderbook_derived_fields "BTC-USD"
    [[.num 50000, .num (mkRat 3 2)]] [[.num 50010, .num (mkRat 6 5)]]
    [[.num 50000, .num (mkRat 3 2)]] [[.num 50010, .num (mkRat 6 5)]]
    ⟨"coinbase", "BTC-USD", [⟨50000, mkRat 3 2, none⟩],
        [⟨50010, mkRat 6 5, none⟩], some 50000, some 50010, some 10, some 50005⟩
    ⟨"prime", "BTC-USD", [⟨50000, mkRat 3 2, none⟩],
        [⟨50010, mkRat 6 5, none⟩], some 50000, some 50010, some 10, some 50005⟩
    (by decide) (by decide)).1

/-- Total conversion of one prime level: `none` both for a level the loop
silently skips (both parsed components zero) and for a level that would
error (so it never disagrees with a successful parse). -/
def primeLevelOpt (level : List JVal) : Option OrderBookLevel :=
  match level with
  | a :: b :: _ =>
      match primeLevelElemVal a, primeLevelElemVal b with
      | .ok price, .ok size =>
          if price = 0 ∧ size = 0 then none else some ⟨price, size, none⟩
      | _, _ => none
  | _ => none

set_option maxRecDepth 8000 in
/-- C9: a successful prime level parse returns exactly the levels whose
parsed price and size are not both zero, in order — so the output can be
strictly shorter than the input, and a level with a zero component
survives only if the other component is non-zero; concretely
`[["0","0"], ["0","1"]]` parses to the single level (0, 1). -/
theorem C9_prime_zero_levels_dropped (levels : List (List JVal))
    (out : List OrderBookLevel)
    (h : primeParseOrderBookLevels levels = .ok out) :
    out = levels.filterMap primeLevelOpt ∧
    out.length ≤ levels.length ∧
    primeParseOrderBookLevels [[.str "0", .str "0"], [.str "0", .str "1"]]
      = .ok [⟨0, 1, none⟩] := by
  have main : out = levels.filterMap primeLevelOpt := by
    induction levels generalizing out with
    | nil =>
        unfold primeParseOrderBookLevels at h
        simp only [Except.ok.injEq] at h
        subst h
        rfl
    | cons level rest ih =>
        unfold primeParseOrderBookLevels at h
        cases level with
        | nil => simp at h
        | cons a t1 =>
            cases t1 with
            | nil => simp at h
            | cons b t2 =>
                cases h1 : primeLevelElemVal a with
                | error e =>
                    simp only [h1] at h
                    exact Except.noConfusion h
                | ok price =>
                    simp only [h1] at h
                    cases h2 : primeLevelElemVal b with
                    | error e =>
                        simp only [h2] at h
                        exact Except.noConfusion h
                    | ok size =>
                        simp only [h2] at h
                        cases h3 : primeParseOrderBookLevels rest with
                        | error e =>
                            simp only [h3] at h
                            exact Except.noConfusion h
                        | ok ls =>
                            simp only [h3] at h
                            by_cases hz : price = 0 ∧ size = 0
                            · rw [if_pos hz] at h
                              simp only [Except.ok.injEq] at h
                              subst h
                              simp [List.filterMap_cons, primeLevelOpt, h1, h2,
                                    if_pos hz, ih ls h3]
                            · rw [if_neg hz] at h
                              simp only [Except.ok.injEq] at h
                              subst h
                              simp [List.filterMap_cons, primeLevelOpt, h1, h2,
                                    if_neg hz, ih ls h3]
  refine ⟨main, ?_, by decide⟩
  rw [main]
  exact List.length_filterMap_le _ _

set_option maxRecDepth 8000 in
/-- C9 witness: the characterization applied at the concrete levels of
the claim. -/
theorem C9_prime_zero_levels_dropped_witness :
    ([⟨0, 1, none⟩] : List OrderBookLevel)
      = [[JVal.str "0", JVal.str "0"], [JVal.str "0", JVal.str "1"]].filterMap
          primeLevelOpt :=
  (C9_prime_zero_levels_dropped
    [[JVal.str "0", JVal.str "0"], [JVal.str "0", JVal.str "1"]]
    [⟨0, 1, none⟩] (by decide)).1
